import Mathlib

/-!
Verification development for the tmpl-generator repository.

Shallow embedding of the three core units:
* `ImageProcessor.load_and_resize_image` (image canonicalizer),
* `MaskManager` (`get_frame`, `process_and_save`),
* `FileMonitor.check_for_updates` (state watcher),
together with the `process_state` activity guard of `TMPLMonitor`.

Modelling conventions:
* A grayscale numpy array is modelled as an `Img`: explicit height and width
  plus a total pixel function.  Pixels outside the stored bounds do not exist
  in a numpy array; the embedding fixes them to `0` uniformly, so that two
  embedded images are equal exactly when the corresponding arrays are equal.
* Machine arithmetic: all pixel values and dimensions are natural numbers.
  The Python expression `int(current_h * scale)` with
  `scale = 3840 / current_w` is the exact rational computation
  `current_h * 3840 / current_w` truncated toward zero, i.e. natural-number
  floor division (`cv2.imread` never yields a 0-width image, so the division
  is by a positive number).
* `cv2.resize(..., interpolation=cv2.INTER_NEAREST)` maps destination pixel
  `(i, j)` to source pixel `(⌊i·src_h/dst_h⌋, ⌊j·src_w/dst_w⌋)`; OpenCV's
  clamp of those indices to the source bounds is a no-op here because the
  floor of `i·src_h/dst_h` for `i < dst_h` is already below `src_h`.
* Python dictionaries are modelled as functions into `Option`, except the
  watcher state dictionary passed to `process_and_save`, which is an
  association list so that Python's emptiness test (`if not state`) is
  expressible.
* The `final_mask` buffer is a uint8 array; storing an index keeps the value
  modulo 256.  The configured indexes lie in `[0, 255]`, where the reduction
  is the identity.
* File-system reads and `cv2.imwrite` are external effects; they enter the
  embedding as explicit inputs (decoded image, file existence, modification
  time, parse outcome, write success flag).
-/

namespace TmplGen

/-- A single-channel image: height, width, and the pixel grid as a total
function; pixels outside the `h × w` bounds are fixed to `0` (they do not
exist in the numpy array being modelled). -/
@[ext]
structure Img where
  h : Nat
  w : Nat
  px : Nat → Nat → Nat

/-- The `cv2.threshold(img, 127, 255, cv2.THRESH_BINARY)` call: a pixel
strictly above 127 becomes 255, any other pixel becomes 0. -/
def thresholdImg (img : Img) : Img :=
  ⟨img.h, img.w, fun i j =>
    if i < img.h ∧ j < img.w then (if img.px i j > 127 then 255 else 0) else 0⟩

/-- The resized height computed by `load_and_resize_image`:
`new_h = int(current_h * scale)` with `scale = 3840 / current_w`,
i.e. the floor of `current_h * 3840 / current_w`. -/
def scaledHeight (h w : Nat) : Nat := h * 3840 / w

/-- Modelled from the spec: the spec's resize step instead asks for
`round(source_height * s)` with `s = 3840 / source_width`; rounding half up,
this is `⌊(source_height · 3840 + source_width / 2) / source_width⌋`.
Kept only to compare with `scaledHeight`, which is what the code computes. -/
def scaledHeightSpec (h w : Nat) : Nat := (2 * (h * 3840) + w) / (2 * w)

/-- `cv2.resize(binary, (3840, new_h), interpolation=cv2.INTER_NEAREST)`:
nearest-neighbour resize to width 3840 and height `new_h`. -/
def resizeNN (img : Img) (new_h : Nat) : Img :=
  ⟨new_h, 3840, fun i j =>
    if i < new_h ∧ j < 3840 then img.px (i * img.h / new_h) (j * img.w / 3840) else 0⟩

/-- The vertical height adjustment of `load_and_resize_image`: center-crop to
1280 rows when too tall (`start = (new_h - 1280) / 2`), center-pad with zero
rows when too short (`pad_top = (1280 - new_h) / 2`, remainder at the
bottom), unchanged when the height is exactly 1280. -/
def cropPad (img : Img) : Img :=
  if img.h > 1280 then
    ⟨1280, img.w, fun i j =>
      if i < 1280 ∧ j < img.w then img.px ((img.h - 1280) / 2 + i) j else 0⟩
  else if img.h < 1280 then
    ⟨1280, img.w, fun i j =>
      if i < 1280 ∧ j < img.w then
        (if (1280 - img.h) / 2 ≤ i ∧ i < (1280 - img.h) / 2 + img.h then
          img.px (i - (1280 - img.h) / 2) j
        else 0)
      else 0⟩
  else img

/-- The final validation of `load_and_resize_image`: shape equals
`TARGET_SIZE = (1280, 3840)` and every stored pixel is 0 or 255. -/
def validImg (img : Img) : Prop :=
  img.h = 1280 ∧ img.w = 3840 ∧
    ∀ i, i < img.h → ∀ j, j < img.w → (img.px i j = 0 ∨ img.px i j = 255)

instance (img : Img) : Decidable (validImg img) := by
  unfold validImg; infer_instance

/-- The whole canonicalization pipeline applied to a decoded image:
binarize, resize (nearest neighbour, width 3840, truncated height),
crop/pad vertically to 1280 rows, binarize again. -/
def canonPipeline (img : Img) : Img :=
  thresholdImg (cropPad (resizeNN (thresholdImg img) (scaledHeight img.h img.w)))

/-- `ImageProcessor.load_and_resize_image`.  The argument is the result of
`cv2.imread(..., cv2.IMREAD_GRAYSCALE)`: `none` when the file could not be
decoded.  The body mirrors the source: threshold, resize, height
adjustment, final threshold, then the shape and value-domain checks, with
`none` returned on a failed check. -/
def load_and_resize_image (decoded : Option Img) : Option Img :=
  match decoded with
  | none => none
  | some image =>
    let binary := thresholdImg image
    let new_h := scaledHeight binary.h binary.w
    let resized := resizeNN binary new_h
    let adjusted := cropPad resized
    let final := thresholdImg adjusted
    if validImg final then some final else none

/-- Modelled from the spec: the same pipeline but with the spec's rounded
resize height, used only to compare against the code's behaviour. -/
def canonPipelineSpec (img : Img) : Img :=
  thresholdImg (cropPad (resizeNN (thresholdImg img) (scaledHeightSpec img.h img.w)))

/-- A cached mask or frame as the compositor sees it: the pixel function of a
canonical 1280 × 3840 uint8 array. -/
abbrev Mask := Nat → Nat → Nat

/-- `MaskConfig` from `configs/mask_config.py`: the `gray_values` list and the
`gray_indexes` dictionary (gray value to output index). -/
structure MaskConfig where
  name : String
  gray_values : List Nat
  gray_indexes : Nat → Option Nat

/-- The state of a `MaskManager` after initialization: the two caches, the
per-sequence maximum frame numbers, and the output counter.  The path fields
of the source (`panorama_id`, `base_paths`, `results_dir`) are file-system
handles and are not part of the embedding. -/
structure MaskManager where
  config : MaskConfig
  mask_cache : Nat → Option Mask
  sequence_frames : Nat → Option (Nat → Option (Nat → Option Mask))
  sequence_max_frames : Nat → Option (Nat → Option Nat)
  results_index : Nat

/-- `MaskManager.get_frame`: membership tests on the two nested dictionaries,
the `sequence_max_frames[gray_value].get(seq_num, 0)` read, the `max == 0`
guard, and the clamp `actual_frame = min(frame_num, max_frame)`.
When `gray_value` is a key of `sequence_frames` but not of
`sequence_max_frames` the Python code raises `KeyError`; the loader
establishes that both dictionaries always gain keys together, so that branch
is unreachable and is mapped to `none` here. -/
def get_frame (m : MaskManager) (gray_value seq_num frame_num : Nat) : Option Mask :=
  match m.sequence_frames gray_value with
  | none => none
  | some seqs =>
    match seqs seq_num with
    | none => none
    | some frames =>
      match m.sequence_max_frames gray_value with
      | none => none
      | some maxd =>
        let max_frame := (maxd seq_num).getD 0
        if max_frame = 0 then none
        else frames (min frame_num max_frame)

/-- The `state` dictionary passed to `process_and_save`: gray value to list of
`(seq_num, frame_num)` pairs, as an association list so that Python's
emptiness test on the dictionary is expressible. -/
abbrev CompState := List (Nat × List (Nat × Nat))

/-- Pointwise maximum of two masks, one step of `np.maximum.reduce`. -/
def pwMax (a b : Mask) : Mask := fun i j => max (a i j) (b i j)

/-- `np.maximum.reduce` over the collected frames (the source short-circuits
a one-element list to its single element, which reduce also yields). -/
def maxReduce : List Mask → Mask
  | [] => fun _ _ => 0
  | f :: fs => fs.foldl pwMax f

/-- The `active_frames` list collected for one gray value: the static mask
when cached, followed by the non-absent `get_frame` results for the state's
`(seq_num, frame_num)` pairs of that gray value. -/
def activeFramesFor (m : MaskManager) (state : CompState) (gray_value : Nat) : List Mask :=
  (match m.mask_cache gray_value with
   | some mask => [mask]
   | none => []) ++
  (match state.lookup gray_value with
   | some pairs => pairs.filterMap fun sf => get_frame m gray_value sf.1 sf.2
   | none => [])

/-- One iteration of the compositing loop for a single gray value: skip when
no candidate frames exist, otherwise combine them with `np.maximum.reduce`
and, when the gray value has an index mapping, overwrite every pixel where
the combined mask is positive with that index (stored into a uint8 buffer,
hence modulo 256). -/
def applyGray (m : MaskManager) (state : CompState) (acc : Mask) (gray_value : Nat) : Mask :=
  let active_frames := activeFramesFor m state gray_value
  if active_frames.isEmpty then acc
  else
    let combined := maxReduce active_frames
    match m.config.gray_indexes gray_value with
    | some index => fun i j => if combined i j > 0 then index % 256 else acc i j
    | none => acc

/-- The sort key of the compositing order: `config.gray_indexes.get(x, 0)`. -/
def sortKey (m : MaskManager) (g : Nat) : Nat := (m.config.gray_indexes g).getD 0

/-- The descending-key ordering used by `sorted(..., reverse=True)`:
`a` may precede `b` when `a`'s key is at least `b`'s key. -/
def grayOrder (m : MaskManager) (a b : Nat) : Prop := sortKey m b ≤ sortKey m a

instance (m : MaskManager) : DecidableRel (grayOrder m) :=
  fun a b => inferInstanceAs (Decidable (sortKey m b ≤ sortKey m a))

instance (m : MaskManager) : IsTotal Nat (grayOrder m) :=
  ⟨fun a b => le_total (sortKey m b) (sortKey m a)⟩

instance (m : MaskManager) : IsTrans Nat (grayOrder m) :=
  ⟨fun _ _ _ h1 h2 => le_trans h2 h1⟩

/-- `sorted(self.config.gray_values, key=..., reverse=True)`: a stable sort
into descending key order, modelled by insertion sort on `grayOrder` (any
stable sort computes the same list as Python's stable `sorted`). -/
def sortedGrays (m : MaskManager) : List Nat :=
  List.insertionSort (grayOrder m) m.config.gray_values

/-- The `final_mask` built by `process_and_save`: a 255-filled buffer folded
through the compositing loop over the descending-index gray value order. -/
def renderedMask (m : MaskManager) (state : CompState) : Mask :=
  (sortedGrays m).foldl (applyGray m state) (fun _ _ => 255)

/-- `MaskManager.process_and_save`.  Returns the updated manager together
with the persisted result: `none` for an empty state, otherwise the numbered
output (`{results_index + 1}.bmp`) and the written image.  `write_ok` is the
success flag returned by `cv2.imwrite`; the source discards that flag, so
the result does not depend on it. -/
def process_and_save (m : MaskManager) (state : CompState) (write_ok : Bool) :
    MaskManager × Option (Nat × Mask) :=
  if state.isEmpty then (m, none)
  else
    let final_mask := renderedMask m state
    let next_index := m.results_index + 1
    (⟨m.config, m.mask_cache, m.sequence_frames, m.sequence_max_frames, next_index⟩,
      some (next_index, final_mask))

/-- Decidable form of "gray value `g` contributes an 'on' pixel at `(i, j)`":
some collected candidate frame (static mask or active sequence frame) is
positive there. -/
def layerOnB (m : MaskManager) (state : CompState) (g i j : Nat) : Bool :=
  (activeFramesFor m state g).any fun f => decide (0 < f i j)

/-- Gray value `g` both has an index mapping and is 'on' at `(i, j)`. -/
def mappedOnB (m : MaskManager) (state : CompState) (g i j : Nat) : Bool :=
  (m.config.gray_indexes g).isSome && layerOnB m state g i j

/-- `FileMonitor`'s mutable fields: the last seen modification time and the
last reported state.  Modification times are only ever compared for
equality, so an integer stands in for the float timestamp. -/
structure FileMonitor where
  last_modified : Int
  last_state : Option (List Int)
deriving DecidableEq

/-- `FileMonitor.check_for_updates`.  The file system enters as explicit
inputs: whether the log file exists, its current modification time, and the
outcome of `get_last_state` (the last line parsed with `literal_eval`;
`none` when reading or parsing raised, which `get_last_state` catches and
converts to `None`).  Returns the updated monitor and the reported
`(state, changed)` pair.  Python's truthiness test `if current_state`
is `parsed = some l` with `l ≠ []`. -/
def check_for_updates (fm : FileMonitor) (file_exists : Bool) (mtime : Int)
    (parsed : Option (List Int)) : FileMonitor × Option (List Int) × Bool :=
  if file_exists = false then (fm, none, false)
  else if mtime = fm.last_modified then (fm, none, false)
  else
    match parsed with
    | some l =>
      if l ≠ [] ∧ some l ≠ fm.last_state then
        (⟨mtime, some l⟩, some l, true)
      else (⟨mtime, fm.last_state⟩, none, false)
    | none => (⟨mtime, fm.last_state⟩, none, false)

/-- The guard of `TMPLMonitor.process_state`: `if not state or not any(state):
return` — rendering happens only for a non-empty state with at least one
non-zero (truthy) entry. -/
def process_state_renders (state : List Int) : Bool :=
  !state.isEmpty && state.any fun x => decide (x ≠ 0)

/-! Concrete inputs used by witnesses and counterexamples. -/

/-- A decoded 1 × 7 all-white source image. -/
def img17 : Img := ⟨1, 7, fun _ _ => 255⟩

/-- An everywhere-on canonical mask. -/
def onMask : Mask := fun _ _ => 255

/-- A small configuration: gray values 1, 2, 3 mapped to indexes 5, 10, 1. -/
def cfg0 : MaskConfig :=
  ⟨"dynamic", [1, 2, 3],
    fun g => if g = 1 then some 5 else if g = 2 then some 10 else
      if g = 3 then some 1 else none⟩

/-- A manager for `cfg0` whose three gray values all have everywhere-on
static masks and no sequence frames. -/
def M0 : MaskManager :=
  ⟨cfg0, fun g => if 1 ≤ g ∧ g ≤ 3 then some onMask else none,
    fun _ => none, fun _ => none, 0⟩

/-- A non-empty state dictionary with no active sequences. -/
def state0 : CompState := [(1, [])]

/-- Frames 1, 2, 3 of the single sequence of `M1`. -/
def frames1 : Nat → Option Mask := fun f => if 1 ≤ f ∧ f ≤ 3 then some onMask else none

/-- The sequence dictionary of gray value 7 in `M1`. -/
def seqs1 : Nat → Option (Nat → Option Mask) := fun s => if s = 1 then some frames1 else none

/-- The recorded maximum frame numbers of gray value 7 in `M1`. -/
def maxd1 : Nat → Option Nat := fun s => if s = 1 then some 3 else none

/-- A manager with one gray value (7) owning one sequence with frames 1..3. -/
def M1 : MaskManager :=
  ⟨cfg0, fun _ => none,
    fun g => if g = 7 then some seqs1 else none,
    fun g => if g = 7 then some maxd1 else none, 0⟩

/-! Helper lemmas about the canonicalizer. -/

theorem thresholdImg_h (img : Img) : (thresholdImg img).h = img.h := rfl

theorem thresholdImg_w (img : Img) : (thresholdImg img).w = img.w := rfl

theorem thresholdImg_px_binary (img : Img) (i j : Nat) :
    (thresholdImg img).px i j = 0 ∨ (thresholdImg img).px i j = 255 := by
  unfold thresholdImg
  dsimp only
  split
  · split
    · exact Or.inr rfl
    · exact Or.inl rfl
  · exact Or.inl rfl

theorem thresholdImg_px_oob (img : Img) (i j : Nat) (h : ¬(i < img.h ∧ j < img.w)) :
    (thresholdImg img).px i j = 0 := by
  unfold thresholdImg
  dsimp only
  exact if_neg h

theorem cropPad_h (img : Img) : (cropPad img).h = 1280 := by
  unfold cropPad
  split
  · rfl
  · split
    · rfl
    · omega

theorem cropPad_w (img : Img) : (cropPad img).w = img.w := by
  unfold cropPad
  split
  · rfl
  · split
    · rfl
    · rfl

theorem resizeNN_w (img : Img) (nh : Nat) : (resizeNN img nh).w = 3840 := rfl

theorem validImg_canonPipeline (img : Img) : validImg (canonPipeline img) := by
  unfold canonPipeline
  refine ⟨?_, ?_, ?_⟩
  · rw [thresholdImg_h, cropPad_h]
  · rw [thresholdImg_w, cropPad_w, resizeNN_w]
  · intro i _ j _
    exact thresholdImg_px_binary _ i j

/-- The final shape and value-domain checks of `load_and_resize_image` always
pass: every decoded image canonicalizes to `canonPipeline` of it. -/
theorem load_total (img : Img) :
    load_and_resize_image (some img) = some (canonPipeline img) := by
  show (if validImg (canonPipeline img) then some (canonPipeline img) else none) =
    some (canonPipeline img)
  exact if_pos (validImg_canonPipeline img)

theorem canonPipeline_px_binary (img : Img) (i j : Nat) :
    (canonPipeline img).px i j = 0 ∨ (canonPipeline img).px i j = 255 :=
  thresholdImg_px_binary _ i j

theorem canonPipeline_px_oob (img : Img) (i j : Nat) (h : ¬(i < 1280 ∧ j < 3840)) :
    (canonPipeline img).px i j = 0 := by
  unfold canonPipeline
  apply thresholdImg_px_oob
  rw [cropPad_h, cropPad_w, resizeNN_w]
  exact h

/-- Thresholding is the identity on an image whose stored pixels are already
0 or 255 and whose out-of-bounds pixel function is the constant 0. -/
theorem thresholdImg_of_canonical (c : Img)
    (hbin : ∀ i j, c.px i j = 0 ∨ c.px i j = 255)
    (hoob : ∀ i j, ¬(i < c.h ∧ j < c.w) → c.px i j = 0) :
    thresholdImg c = c := by
  obtain ⟨h, w, px⟩ := c
  dsimp only at hbin hoob
  unfold thresholdImg
  simp only [Img.mk.injEq, true_and]
  funext i j
  by_cases hib : i < h ∧ j < w
  · rcases hbin i j with h0 | h255
    · simp [hib, h0]
    · simp [hib, h255]
  · simp [hib, hoob i j hib]

/-- A canonical 1280 × 3840 image is a fixed point of the whole pipeline. -/
theorem canonPipeline_of_canonical (c : Img)
    (hh : c.h = 1280) (hw : c.w = 3840)
    (hbin : ∀ i j, c.px i j = 0 ∨ c.px i j = 255)
    (hoob : ∀ i j, ¬(i < c.h ∧ j < c.w) → c.px i j = 0) :
    canonPipeline c = c := by
  obtain ⟨h, w, px⟩ := c
  dsimp only at hh hw
  subst hh; subst hw
  have hthr : thresholdImg ⟨1280, 3840, px⟩ = ⟨1280, 3840, px⟩ :=
    thresholdImg_of_canonical _ hbin hoob
  dsimp only at hbin hoob
  have hsc : scaledHeight 1280 3840 = 1280 := by decide
  have hres : resizeNN ⟨1280, 3840, px⟩ 1280 = ⟨1280, 3840, px⟩ := by
    unfold resizeNN
    simp only [Img.mk.injEq, true_and]
    funext i j
    by_cases hib : i < 1280 ∧ j < 3840
    · have hi : i * 1280 / 1280 = i := by omega
      have hj : j * 3840 / 3840 = j := by omega
      simp [hib, hi, hj]
    · simp [hib, hoob i j hib]
  have hcp : cropPad ⟨1280, 3840, px⟩ = ⟨1280, 3840, px⟩ := by
    unfold cropPad
    simp
  unfold canonPipeline
  simp only [hthr, hsc, hres, hcp]

/-- C2: every non-absent result of `load_and_resize_image` has shape exactly
(1280, 3840) and all of its stored pixels lie in {0, 255}; an image failing
the final validation would be returned as `none`. -/
theorem load_and_resize_image_postcondition (d : Option Img) (r : Img)
    (h : load_and_resize_image d = some r) :
    r.h = 1280 ∧ r.w = 3840 ∧
      ∀ i j, i < 1280 → j < 3840 → (r.px i j = 0 ∨ r.px i j = 255) := by
  match d with
  | none => exact absurd h (by simp [load_and_resize_image])
  | some img =>
    rw [load_total] at h
    injection h with h'
    subst h'
    have hv := validImg_canonPipeline img
    exact ⟨hv.1, hv.2.1, fun i j _ _ => canonPipeline_px_binary img i j⟩

/-- Witness for C2 at the concrete decoded image `img17`. -/
theorem load_and_resize_image_postcondition_witness :
    (canonPipeline img17).h = 1280 ∧ (canonPipeline img17).w = 3840 ∧
      ((canonPipeline img17).px 0 0 = 0 ∨ (canonPipeline img17).px 0 0 = 255) := by
  obtain ⟨h1, h2, h3⟩ :=
    load_and_resize_image_postcondition (some img17) (canonPipeline img17) (load_total img17)
  exact ⟨h1, h2, h3 0 0 (by decide) (by decide)⟩

/-- C4: canonicalization is idempotent — the canonical image produced from
any decodable image is itself canonicalized to exactly the same image. -/
theorem load_and_resize_image_idempotent (x c : Img)
    (h : load_and_resize_image (some x) = some c) :
    load_and_resize_image (some c) = some c := by
  rw [load_total] at h
  injection h with h'
  subst h'
  rw [load_total]
  have hv := validImg_canonPipeline x
  have hfix : canonPipeline (canonPipeline x) = canonPipeline x := by
    refine canonPipeline_of_canonical _ hv.1 hv.2.1 (canonPipeline_px_binary x) ?_
    intro i j hij
    refine canonPipeline_px_oob x i j ?_
    rw [hv.1, hv.2.1] at hij
    exact hij
  exact congrArg some hfix

/-- Witness for C4 at the concrete decoded image `img17`. -/
theorem load_and_resize_image_idempotent_witness :
    load_and_resize_image (some (canonPipeline img17)) = some (canonPipeline img17) :=
  load_and_resize_image_idempotent img17 (canonPipeline img17) (load_total img17)

/-- C5 (amended): for every decoded source image, `load_and_resize_image`
binarizes, resizes with nearest-neighbour interpolation to width 3840 and
height `⌊source_height * 3840 / source_width⌋` — truncation, not the
rounding stated in the spec — then center-crops or center-pads to 1280 rows
and re-binarizes, and the final validation always passes. -/
theorem load_and_resize_image_resize_step (img : Img) :
    load_and_resize_image (some img) =
      some (thresholdImg (cropPad (resizeNN (thresholdImg img)
        (img.h * 3840 / img.w)))) :=
  load_total img

/-- C5 counterexample: on the decoded 1 × 7 image `img17`, the code resizes
to height `⌊3840 / 7⌋ = 548` while the spec's `round` gives 549; the two
pipelines produce visibly different images (row 365 is a padding row under
the code's height but a content row under the spec's height). -/
theorem resize_height_round_counterexample :
    scaledHeight 1 7 = 548 ∧ scaledHeightSpec 1 7 = 549 ∧
    (canonPipeline img17).px 365 0 = 0 ∧ (canonPipelineSpec img17).px 365 0 = 255 ∧
    Option.map (fun c => c.px 365 0) (load_and_resize_image (some img17)) = some 0 ∧
    (548 : Nat) ≠ 549 := by
  refine ⟨by decide, by decide, by decide, by decide, ?_, by decide⟩
  rw [load_total]
  simp only [Option.map_some']
  exact congrArg some (by decide)

/-- C6 counterexample: with a fresh monitor, an existing log whose
modification time changed and whose last line parses as `[0, 0, 0]`,
`check_for_updates` reports `([0, 0, 0], true)` — not `(absent, false)` as
the claim states: a non-empty list is truthy in Python, so the all-zero
state passes the `if current_state` test. -/
theorem check_for_updates_all_zero_counterexample :
    check_for_updates ⟨0, none⟩ true 1 (some [0, 0, 0]) =
      (⟨1, some [0, 0, 0]⟩, some [0, 0, 0], true) ∧
    (some ([0, 0, 0] : List Int), true) ≠ ((none : Option (List Int)), false) :=
  ⟨by decide, by decide⟩

/-- C6 (amended): when the log exists, its modification time changed and its
last line parses as `[0, 0, 0]` differing from the previously reported
state, `check_for_updates` reports `([0, 0, 0], true)`; the all-inactive
list is discarded one level up, by `process_state`'s
`not state or not any(state)` guard, so it causes no render. -/
theorem check_for_updates_all_zero (fm : FileMonitor) (mt : Int)
    (hm : mt ≠ fm.last_modified) (hs : fm.last_state ≠ some [0, 0, 0]) :
    check_for_updates fm true mt (some [0, 0, 0]) =
      (⟨mt, some [0, 0, 0]⟩, some [0, 0, 0], true) ∧
    process_state_renders [0, 0, 0] = false := by
  constructor
  · unfold check_for_updates
    rw [if_neg (by simp), if_neg hm]
    dsimp only
    rw [if_pos ⟨by simp, Ne.symm hs⟩]
  · decide

/-- Witness for C6 (amended) on a fresh monitor. -/
theorem check_for_updates_all_zero_witness :
    check_for_updates ⟨0, none⟩ true 1 (some [0, 0, 0]) =
      (⟨1, some [0, 0, 0]⟩, some [0, 0, 0], true) ∧
    process_state_renders [0, 0, 0] = false :=
  check_for_updates_all_zero ⟨0, none⟩ 1 (by decide) (by decide)

/-- C7: once a poll reports `(s, true)`, a subsequent poll whose last line
parses to the same list `s` reports `(absent, false)` — both when the file
is unchanged (any parse outcome, since parsing is skipped) and when the
file was touched again with the same content; two consecutive identical
parsed states yield exactly one `changed = true` report. -/
theorem check_for_updates_duplicate_suppression (fm : FileMonitor) (mt : Int)
    (parsed : Option (List Int)) (fm' : FileMonitor) (s : List Int)
    (h : check_for_updates fm true mt parsed = (fm', some s, true)) :
    (∀ p2, check_for_updates fm' true mt p2 = (fm', none, false)) ∧
    (∀ mt2, check_for_updates fm' true mt2 (some s) = (⟨mt2, some s⟩, none, false)) := by
  unfold check_for_updates at h
  rw [if_neg (by simp)] at h
  by_cases hmt : mt = fm.last_modified
  · rw [if_pos hmt] at h
    simp at h
  · rw [if_neg hmt] at h
    cases parsed with
    | none => simp at h
    | some l =>
      dsimp only at h
      by_cases hc : l ≠ [] ∧ some l ≠ fm.last_state
      · rw [if_pos hc] at h
        injection h with hA hB
        injection hB with hB1 _
        injection hB1 with hls
        subst hls
        subst hA
        constructor
        · intro p2
          unfold check_for_updates
          rw [if_neg (by simp)]
          dsimp only
          rw [if_pos rfl]
        · intro mt2
          unfold check_for_updates
          rw [if_neg (by simp)]
          dsimp only
          by_cases hmt2 : mt2 = mt
          · rw [if_pos hmt2]
            subst hmt2
            rfl
          · rw [if_neg hmt2]
            rw [if_neg (by simp)]
      · rw [if_neg hc] at h
        simp at h

/-- Witness for C7: after reporting `([2, 0], true)`, an unchanged file and a
touched-again file with the same last line both report `(absent, false)`. -/
theorem check_for_updates_duplicate_suppression_witness :
    check_for_updates ⟨1, some [2, 0]⟩ true 1 (some [2, 0]) =
      (⟨1, some [2, 0]⟩, none, false) ∧
    check_for_updates ⟨1, some [2, 0]⟩ true 2 (some [2, 0]) =
      (⟨2, some [2, 0]⟩, none, false) := by
  have h := check_for_updates_duplicate_suppression ⟨0, none⟩ 1 (some [2, 0])
    ⟨1, some [2, 0]⟩ [2, 0] (by decide)
  exact ⟨h.1 (some [2, 0]), h.2 2⟩

/-- C8: when the modification time changed but the last line fails to parse,
`check_for_updates` reports `(absent, false)`, leaves the previously
reported state untouched, and still stores the new modification timestamp;
in fact the timestamp is stored whenever a parse is attempted, whatever
the parse outcome. -/
theorem check_for_updates_malformed (fm : FileMonitor) (mt : Int)
    (hm : mt ≠ fm.last_modified) :
    check_for_updates fm true mt none = (⟨mt, fm.last_state⟩, none, false) ∧
    (⟨mt, fm.last_state⟩ : FileMonitor).last_state = fm.last_state ∧
    ∀ parsed, ((check_for_updates fm true mt parsed).1).last_modified = mt := by
  refine ⟨?_, rfl, ?_⟩
  · unfold check_for_updates
    rw [if_neg (by simp), if_neg hm]
  · intro parsed
    unfold check_for_updates
    rw [if_neg (by simp), if_neg hm]
    cases parsed with
    | none => rfl
    | some l =>
      dsimp only
      by_cases hc : l ≠ [] ∧ some l ≠ fm.last_state
      · rw [if_pos hc]
      · rw [if_neg hc]

/-- Witness for C8 on a monitor that previously reported `[1, 2]`. -/
theorem check_for_updates_malformed_witness :
    check_for_updates ⟨0, some [1, 2]⟩ true 5 none =
      (⟨5, some [1, 2]⟩, none, false) ∧
    ((check_for_updates ⟨0, some [1, 2]⟩ true 5 (some [3])).1).last_modified = 5 := by
  have h := check_for_updates_malformed ⟨0, some [1, 2]⟩ 5 (by decide)
  exact ⟨h.1, h.2.2 (some [3])⟩

/-- C3: `get_frame` clamps beyond-maximum frame requests down to the
sequence's recorded maximum and returns absent for an unknown gray value,
an unknown sequence number, or a recorded maximum of 0. -/
theorem get_frame_contract (m : MaskManager) (g s f : Nat) (maxd : Nat → Option Nat)
    (hmd : m.sequence_max_frames g = some maxd) :
    (m.sequence_frames g = none → get_frame m g s f = none) ∧
    (∀ seqs, m.sequence_frames g = some seqs → seqs s = none → get_frame m g s f = none) ∧
    ((maxd s).getD 0 = 0 → get_frame m g s f = none) ∧
    (0 < (maxd s).getD 0 → (maxd s).getD 0 < f →
      get_frame m g s f = get_frame m g s ((maxd s).getD 0)) := by
  refine ⟨?_, ?_, ?_, ?_⟩
  · intro h
    simp [get_frame, h]
  · intro seqs hseq hs
    simp [get_frame, hseq, hs]
  · intro h0
    cases hsf : m.sequence_frames g with
    | none => simp [get_frame, hsf]
    | some seqs =>
      cases hss : seqs s with
      | none => simp [get_frame, hsf, hss]
      | some frames => simp [get_frame, hsf, hss, hmd, h0]
  · intro hpos hlt
    cases hsf : m.sequence_frames g with
    | none => simp [get_frame, hsf]
    | some seqs =>
      cases hss : seqs s with
      | none => simp [get_frame, hsf, hss]
      | some frames =>
        simp only [get_frame, hsf, hss, hmd]
        rw [if_neg (by omega), if_neg (by omega)]
        rw [min_eq_right (le_of_lt hlt), min_self]

/-- Witness for C3 on `M1`: frame 5 of sequence 1 of gray value 7 resolves
to frame 3 (the recorded maximum), and sequence 2 (no recorded frames)
resolves to absent. -/
theorem get_frame_contract_witness :
    get_frame M1 7 1 5 = get_frame M1 7 1 3 ∧ get_frame M1 7 2 5 = none := by
  have h1 := get_frame_contract M1 7 1 5 maxd1 rfl
  have h2 := get_frame_contract M1 7 2 5 maxd1 rfl
  exact ⟨h1.2.2.2 (by decide) (by decide), h2.2.2.1 (by decide)⟩

/-! Helper lemmas about the compositing loop. -/

theorem foldl_pwMax_apply (i j : Nat) :
    ∀ (fs : List Mask) (a : Mask),
      (fs.foldl pwMax a) i j = fs.foldl (fun n f => max n (f i j)) (a i j)
  | [], _ => rfl
  | f :: fs, a => by
    simp only [List.foldl_cons]
    rw [foldl_pwMax_apply i j fs (pwMax a f)]
    rfl

theorem foldl_max_pos (i j : Nat) :
    ∀ (fs : List Mask) (n : Nat),
      0 < fs.foldl (fun n f => max n (f i j)) n ↔ 0 < n ∨ ∃ f ∈ fs, 0 < f i j
  | [], n => by simp
  | f :: fs, n => by
    simp only [List.foldl_cons]
    rw [foldl_max_pos i j fs]
    simp only [List.exists_mem_cons_iff, lt_max_iff]
    tauto

theorem maxReduce_pos (fs : List Mask) (i j : Nat) :
    0 < maxReduce fs i j ↔ ∃ f ∈ fs, 0 < f i j := by
  cases fs with
  | nil => simp [maxReduce]
  | cons f fs =>
    simp only [maxReduce]
    rw [foldl_pwMax_apply, foldl_max_pos]
    simp [List.exists_mem_cons_iff]

theorem layerOnB_iff (m : MaskManager) (state : CompState) (g i j : Nat) :
    layerOnB m state g i j = true ↔ ∃ f ∈ activeFramesFor m state g, 0 < f i j := by
  unfold layerOnB
  rw [List.any_eq_true]
  simp only [decide_eq_true_eq]

/-- Pointwise description of one loop iteration: the pixel is overwritten
with the gray value's index exactly when the gray value is mapped and some
candidate frame is 'on' there. -/
theorem applyGray_px (m : MaskManager) (state : CompState) (acc : Mask) (g i j : Nat) :
    applyGray m state acc g i j =
      if mappedOnB m state g i j = true then ((m.config.gray_indexes g).getD 0) % 256
      else acc i j := by
  unfold applyGray mappedOnB
  by_cases hemp : (activeFramesFor m state g).isEmpty = true
  · rw [if_pos hemp]
    have hlo : layerOnB m state g i j = false := by
      unfold layerOnB
      rw [List.isEmpty_iff.mp hemp]
      rfl
    rw [hlo]
    simp
  · rw [if_neg hemp]
    cases hgi : m.config.gray_indexes g with
    | none =>
      simp
    | some v =>
      dsimp only
      by_cases hon : layerOnB m state g i j = true
      · have hcomb : 0 < maxReduce (activeFramesFor m state g) i j :=
          (maxReduce_pos _ i j).mpr ((layerOnB_iff m state g i j).mp hon)
        rw [if_pos hcomb, hon]
        simp
      · have hcomb : ¬0 < maxReduce (activeFramesFor m state g) i j := by
          rw [maxReduce_pos]
          intro hx
          exact hon ((layerOnB_iff m state g i j).mpr hx)
        rw [if_neg hcomb]
        simp [Bool.eq_false_iff.mpr hon]

/-- Pointwise description of the whole compositing fold: a pixel holds the
(uint8-reduced) index of the last gray value in the processing order that is
mapped and 'on' there, and the initial value where there is none. -/
theorem foldl_applyGray_px (m : MaskManager) (state : CompState) (i j : Nat) :
    ∀ (L : List Nat) (acc : Mask),
      (L.foldl (applyGray m state) acc) i j =
        match (L.filter fun g => mappedOnB m state g i j).getLast? with
        | some g => ((m.config.gray_indexes g).getD 0) % 256
        | none => acc i j
  | [], acc => rfl
  | a :: L, acc => by
    simp only [List.foldl_cons, List.filter_cons]
    rw [foldl_applyGray_px m state i j L (applyGray m state acc a)]
    by_cases hp : mappedOnB m state a i j = true
    · rw [if_pos hp]
      cases hfl : List.filter (fun g => mappedOnB m state g i j) L with
      | nil =>
        simp only [hfl, List.getLast?_nil, List.getLast?_singleton]
        rw [applyGray_px, if_pos hp]
      | cons b l' =>
        rw [List.getLast?_cons_cons]
        cases hgl : (b :: l').getLast? with
        | none =>
          rw [List.getLast?_eq_none_iff] at hgl
          exact absurd hgl (by simp)
        | some c => rfl
    · rw [if_neg hp]
      cases hfl : List.filter (fun g => mappedOnB m state g i j) L with
      | nil =>
        simp only [List.getLast?_nil]
        rw [applyGray_px, if_neg hp]
      | cons b l' => rfl

/-- The last element of a pairwise-related list is related to every other
element. -/
theorem pairwise_rel_getLast (R : Nat → Nat → Prop) :
    ∀ (l : List Nat), l.Pairwise R → ∀ y, l.getLast? = some y →
      ∀ x, x ∈ l → x = y ∨ R x y
  | [], _, y, hy, _, hx => absurd hx (List.not_mem_nil _)
  | a :: l, h, y, hy, x, hx => by
    rw [List.pairwise_cons] at h
    cases hl : l with
    | nil =>
      subst hl
      simp only [List.getLast?_singleton, Option.some.injEq] at hy
      subst hy
      rcases List.mem_singleton.mp hx with rfl
      exact Or.inl rfl
    | cons b l' =>
      subst hl
      rw [List.getLast?_cons_cons] at hy
      have hymem : y ∈ b :: l' := List.mem_of_mem_getLast? (by rw [hy]; rfl)
      rcases List.mem_cons.mp hx with rfl | hx'
      · exact Or.inr (h.1 y hymem)
      · exact pairwise_rel_getLast R (b :: l') h.2 y hy x hx'

theorem sortedGrays_pairwise (m : MaskManager) :
    (sortedGrays m).Pairwise (grayOrder m) :=
  List.sorted_insertionSort (grayOrder m) m.config.gray_values

theorem mem_sortedGrays (m : MaskManager) (g : Nat) :
    g ∈ sortedGrays m ↔ g ∈ m.config.gray_values :=
  List.mem_insertionSort (grayOrder m)

/-- C1 counterexample: in `M0`, gray values 1 (index 5) and 2 (index 10) are
both mapped and both 'on' at pixel (0, 0), yet the rendered pixel is 1 —
the index of the also-active gray value 3 — not 5, the lower of the pair's
indexes; so the pairwise form of the claim fails when a third mapped gray
value with a smaller index is active at the same pixel. -/
theorem process_and_save_pairwise_counterexample :
    M0.config.gray_indexes 1 = some 5 ∧ M0.config.gray_indexes 2 = some 10 ∧
    mappedOnB M0 state0 1 0 0 = true ∧ mappedOnB M0 state0 2 0 0 = true ∧
    renderedMask M0 state0 0 0 = 1 ∧ (1 : Nat) ≠ 5 ∧
    (process_and_save M0 state0 true).2 = some (1, renderedMask M0 state0) :=
  ⟨by decide, by decide, by decide, by decide, by decide, by decide, rfl⟩

/-- C1 (amended): `process_and_save` visits gray values in descending mapped
index order with unconditional overwrites, so whenever some mapped gray
value is 'on' at a pixel, the rendered pixel equals the smallest mapped
index over all gray values that are mapped and 'on' there — in particular,
for two active gray values it is the lower of their indexes provided no
third mapped gray value with a smaller index is also active at that pixel,
regardless of discovery order. -/
theorem process_and_save_lowest_index_wins
    (m : MaskManager) (state : CompState) (write_ok : Bool) (i j a : Nat)
    (hne : state.isEmpty = false)
    (hidx : ∀ g v, m.config.gray_indexes g = some v → v ≤ 255)
    (ha : a ∈ m.config.gray_values)
    (hon : mappedOnB m state a i j = true) :
    (process_and_save m state write_ok).2 = some (m.results_index + 1, renderedMask m state) ∧
    ∃ g, g ∈ m.config.gray_values ∧ mappedOnB m state g i j = true ∧
      ∃ v, m.config.gray_indexes g = some v ∧ renderedMask m state i j = v ∧
        ∀ b, b ∈ m.config.gray_values → mappedOnB m state b i j = true →
          ∀ u, m.config.gray_indexes b = some u → v ≤ u := by
  constructor
  · simp [process_and_save, hne]
  · have haS : a ∈ sortedGrays m := (mem_sortedGrays m a).mpr ha
    have haF : a ∈ (sortedGrays m).filter (fun g => mappedOnB m state g i j) :=
      List.mem_filter.mpr ⟨haS, hon⟩
    obtain ⟨g, hgl⟩ : ∃ g,
        ((sortedGrays m).filter (fun g => mappedOnB m state g i j)).getLast? = some g := by
      cases hfl : ((sortedGrays m).filter (fun g => mappedOnB m state g i j)).getLast? with
      | none =>
        rw [List.getLast?_eq_none_iff] at hfl
        rw [hfl] at haF
        exact absurd haF (List.not_mem_nil a)
      | some g => exact ⟨g, rfl⟩
    have hgF : g ∈ (sortedGrays m).filter (fun g => mappedOnB m state g i j) :=
      List.mem_of_mem_getLast? (by rw [hgl]; rfl)
    have hgS := (List.mem_filter.mp hgF).1
    have hgOn : mappedOnB m state g i j = true := (List.mem_filter.mp hgF).2
    obtain ⟨v, hv⟩ : ∃ v, m.config.gray_indexes g = some v :=
      Option.isSome_iff_exists.mp ((Bool.and_eq_true _ _).mp hgOn).1
    have hpx : renderedMask m state i j = v % 256 := by
      unfold renderedMask
      rw [foldl_applyGray_px, hgl]
      dsimp only
      rw [hv, Option.getD_some]
    have hv255 : v ≤ 255 := hidx g v hv
    refine ⟨g, (mem_sortedGrays m g).mp hgS, hgOn, v, hv, ?_, ?_⟩
    · rw [hpx]
      omega
    · intro b hbGV hbOn u hu
      have hbF : b ∈ (sortedGrays m).filter (fun g => mappedOnB m state g i j) :=
        List.mem_filter.mpr ⟨(mem_sortedGrays m b).mpr hbGV, hbOn⟩
      have hpw : ((sortedGrays m).filter (fun g => mappedOnB m state g i j)).Pairwise
          (grayOrder m) :=
        List.Pairwise.filter _ (sortedGrays_pairwise m)
      rcases pairwise_rel_getLast (grayOrder m) _ hpw g hgl b hbF with heq | hR
      · subst heq
        rw [hu] at hv
        injection hv with hv'
        omega
      · unfold grayOrder sortKey at hR
        rw [hv, hu] at hR
        simpa using hR

/-- Witness for C1 (amended) on `M0`: gray value 3 (index 1) holds the
minimum at pixel (0, 0). -/
theorem process_and_save_lowest_index_wins_witness :
    (process_and_save M0 state0 true).2 = some (1, renderedMask M0 state0) ∧
    ∃ g, g ∈ M0.config.gray_values ∧ mappedOnB M0 state0 g 0 0 = true ∧
      ∃ v, M0.config.gray_indexes g = some v ∧ renderedMask M0 state0 0 0 = v ∧
        ∀ b, b ∈ M0.config.gray_values → mappedOnB M0 state0 b 0 0 = true →
          ∀ u, M0.config.gray_indexes b = some u → v ≤ u :=
  process_and_save_lowest_index_wins M0 state0 true 0 0 1 (by decide)
    (by
      intro g v h
      simp only [M0, cfg0] at h
      split at h
      · injection h with h'
        omega
      · split at h
        · injection h with h'
          omega
        · split at h
          · injection h with h'
            omega
          · simp at h)
    (by decide) (by decide)

/-- C10: every pixel of the rendered result is either the 255 background or
a value in the range of the configured `gray_indexes` mapping, and a pixel
at which no mapped gray value is 'on' — in particular one covered only by
gray values without an index entry — keeps the 255 background. -/
theorem process_and_save_pixel_domain
    (m : MaskManager) (state : CompState) (write_ok : Bool) (i j : Nat)
    (hne : state.isEmpty = false)
    (hidx : ∀ g v, m.config.gray_indexes g = some v → v ≤ 255) :
    (process_and_save m state write_ok).2 = some (m.results_index + 1, renderedMask m state) ∧
    (renderedMask m state i j = 255 ∨
      ∃ g, g ∈ m.config.gray_values ∧
        m.config.gray_indexes g = some (renderedMask m state i j)) ∧
    ((∀ g, g ∈ m.config.gray_values → mappedOnB m state g i j = false) →
      renderedMask m state i j = 255) := by
  refine ⟨by simp [process_and_save, hne], ?_, ?_⟩
  · unfold renderedMask
    rw [foldl_applyGray_px]
    cases hgl : ((sortedGrays m).filter fun g => mappedOnB m state g i j).getLast? with
    | none => exact Or.inl rfl
    | some g =>
      refine Or.inr ?_
      have hgF : g ∈ (sortedGrays m).filter (fun g => mappedOnB m state g i j) :=
        List.mem_of_mem_getLast? (by rw [hgl]; rfl)
      have hgOn : mappedOnB m state g i j = true := (List.mem_filter.mp hgF).2
      obtain ⟨v, hv⟩ : ∃ v, m.config.gray_indexes g = some v :=
        Option.isSome_iff_exists.mp ((Bool.and_eq_true _ _).mp hgOn).1
      refine ⟨g, (mem_sortedGrays m g).mp (List.mem_filter.mp hgF).1, ?_⟩
      have hv255 : v ≤ 255 := hidx g v hv
      dsimp only
      have hmod : v % 256 = v := by omega
      rw [hv, Option.getD_some, hmod]
  · intro hall
    unfold renderedMask
    rw [foldl_applyGray_px]
    have hfl : (sortedGrays m).filter (fun g => mappedOnB m state g i j) = [] := by
      rw [List.filter_eq_nil_iff]
      intro g hgS
      rw [hall g ((mem_sortedGrays m g).mp hgS)]
      simp
    rw [hfl]
    rfl

/-- Witness for C10 on `M0` at pixel (0, 0). -/
theorem process_and_save_pixel_domain_witness :
    (process_and_save M0 state0 true).2 = some (1, renderedMask M0 state0) ∧
    (renderedMask M0 state0 0 0 = 255 ∨
      ∃ g, g ∈ M0.config.gray_values ∧
        M0.config.gray_indexes g = some (renderedMask M0 state0 0 0)) := by
  have h := process_and_save_pixel_domain M0 state0 true 0 0 (by decide)
    (by
      intro g v h
      simp only [M0, cfg0] at h
      split at h
      · injection h with h'
        omega
      · split at h
        · injection h with h'
          omega
        · split at h
          · injection h with h'
            omega
          · simp at h)
  exact ⟨h.1, h.2.1⟩

/-- C9: `process_and_save` discards the success flag of `cv2.imwrite`, so a
failed write (disk full, permission denied) is not surfaced: for every
non-empty state the function returns the numbered result path exactly as if
the write had succeeded.  This contradicts the claim (and the spec's
intent) that persist failures propagate to the caller. -/
theorem process_and_save_ignores_write_failure (m : MaskManager) (state : CompState)
    (hne : state.isEmpty = false) :
    process_and_save m state false = process_and_save m state true ∧
    (process_and_save m state false).2 =
      some (m.results_index + 1, renderedMask m state) := by
  refine ⟨rfl, ?_⟩
  simp [process_and_save, hne]

/-- Witness for C9 on `M0`: the path `1.bmp` is reported even when the write
failed. -/
theorem process_and_save_ignores_write_failure_witness :
    process_and_save M0 state0 false = process_and_save M0 state0 true ∧
    (process_and_save M0 state0 false).2 = some (1, renderedMask M0 state0) :=
  process_and_save_ignores_write_failure M0 state0 (by decide)

end TmplGen
